import Mathlib

/-!
Verification of the `FormValidator` engine of the hashtagcms/web-sdk
repository, shallowly embedded in Lean 4.

The source file defines `defaultRules`, `defaultMessages` and the class
`FormValidator` with `_getFieldRules`, `_getFieldValue`, `_getErrorMessage`,
`validateField`, `_updateFieldUI`, `_showErrorMessage`, `_removeErrorMessage`,
`validate`, `reset`, `addRule`, `getErrors`, `isValid`.

Modelling conventions:
* JavaScript field values are `JSValue` (string, boolean, null, undefined);
  `field.value` on an input element is always a string.
* JavaScript host builtins that the rules call out to but whose internals
  are not part of this repository (RegExp.test, new URL, new Date, and the
  document lookup used by the `match` rule) are modelled as an explicit
  oracle record `Host`; the rule bodies are translated faithfully around
  those calls, so properties proven for every `Host` hold for every possible
  behaviour of the host builtins.
* `Number(...)`, `parseFloat(...)` and `parseInt(...)` are modelled
  explicitly over decimal/Infinity literals (`JSNum` is NaN, signed
  infinity, or a finite rational).  Hex/octal/binary literals are not
  modelled; no claim depends on them.
* The error map `this.errors` (a JS object keyed by field name) is an
  association list with at most one entry per key; `delete this.errors[k]`
  is key-filtering, property assignment is append-after-delete.
* DOM side effects of the UI synchronizer act on a `UIState`: the field's
  classList and the list of injected error-message nodes in the field's
  wrapper (`querySelector` returns the first match in order).
-/

/-- JavaScript values that can flow through the validator: field values are
strings or (for checkboxes) booleans; absent data is null/undefined. -/
inductive JSValue where
  | str : String → JSValue
  | boolVal : Bool → JSValue
  | nullV : JSValue
  | undefinedV : JSValue
deriving DecidableEq, Repr

/-- JS truthiness (`if (!value) ...`): the empty string, `false`, `null`
and `undefined` are falsy. -/
def jsTruthy : JSValue → Bool
  | .str s => s ≠ ""
  | .boolVal b => b
  | .nullV => false
  | .undefinedV => false

/-- JS `String(value)` coercion. -/
def jsToString : JSValue → String
  | .str s => s
  | .boolVal b => if b then "true" else "false"
  | .nullV => "null"
  | .undefinedV => "undefined"

/-- JS `String.prototype.trim` as a character-level function. -/
def trimJS (s : String) : String :=
  ⟨((s.toList.dropWhile Char.isWhitespace).reverse.dropWhile Char.isWhitespace).reverse⟩

/-- A JS number as classified by the rules: NaN, ±Infinity, or a finite
value, kept exactly as an unreduced fraction `num / den` (the parsers below
only ever produce positive power-of-ten denominators). -/
inductive JSNum where
  | nan : JSNum
  | inf : Bool → JSNum
  | finite : Int → Nat → JSNum
deriving DecidableEq, Repr

def JSNum.isNaN : JSNum → Bool
  | .nan => true
  | _ => false

def JSNum.isFinite : JSNum → Bool
  | .finite _ _ => true
  | _ => false

/-- `Number.isInteger`: the denominator divides the numerator. -/
def JSNum.isInteger : JSNum → Bool
  | .finite n d => d ≠ 0 ∧ n % (d : Int) = 0
  | _ => false

/-- JS `>=` on numbers: any comparison involving NaN is false; finite
fractions compare by cross multiplication (denominators are positive). -/
def jsGe : JSNum → JSNum → Bool
  | .nan, _ => false
  | _, .nan => false
  | .inf true, _ => true
  | .inf false, .inf false => true
  | .inf false, _ => false
  | .finite _ _, .inf true => false
  | .finite _ _, .inf false => true
  | .finite an ad, .finite bn bd => an * (bd : Int) ≥ bn * (ad : Int)

/-- JS `<=` on numbers: any comparison involving NaN is false. -/
def jsLe (a b : JSNum) : Bool := jsGe b a

def natOfDigits (ds : List Char) : Nat :=
  ds.foldl (fun a c => 10 * a + (c.toNat - 48)) 0

/-- Optional leading sign; returns `true` for non-negative. -/
def parseSign : List Char → Bool × List Char
  | '+' :: cs => (true, cs)
  | '-' :: cs => (false, cs)
  | cs => (true, cs)

/-- Exponent suffix `e`/`E` sign? digits+ of a decimal literal; `none` when
the characters do not form a well-formed exponent (they are then left for
the caller, matching `parseFloat("1e")` = 1). -/
def parseExpPart : List Char → Option (Int × List Char)
  | c :: cs =>
    if c = 'e' ∨ c = 'E' then
      let (sg, cs') := parseSign cs
      let (ds, rest) := cs'.span Char.isDigit
      if ds.isEmpty then none
      else some ((if sg then (natOfDigits ds : Int) else -(natOfDigits ds : Int)), rest)
    else none
  | [] => none

/-- Longest decimal-literal prefix `digits* ('.' digits*)? exp?` with at
least one mantissa digit; returns its exact value as a fraction and the
unconsumed rest. -/
def parseDecimal (cs : List Char) : Option ((Int × Nat) × List Char) :=
  let (ip, r1) := cs.span Char.isDigit
  let (fpds, r2) :=
    match r1 with
    | '.' :: t => t.span Char.isDigit
    | _ => ([], r1)
  if ip.isEmpty ∧ fpds.isEmpty then none
  else
    let num : Int := (natOfDigits ip * 10 ^ fpds.length + natOfDigits fpds : Nat)
    let den : Nat := 10 ^ fpds.length
    match parseExpPart r2 with
    | some (e, r3) =>
      if 0 ≤ e then some ((num * 10 ^ e.toNat, den), r3)
      else some ((num, den * 10 ^ (-e).toNat), r3)
    | none => some ((num, den), r2)

def applySign (sg : Bool) : JSNum → JSNum
  | .nan => .nan
  | .inf b => if sg then .inf b else .inf (!b)
  | .finite n d => if sg then .finite n d else .finite (-n) d

/-- JS `Number(string)` (ToNumber on strings): trim, empty is 0, else the
whole string must be a signed decimal or Infinity literal, else NaN.
(Hex/octal/binary literals are not modelled.) -/
def toNumber (s : String) : JSNum :=
  let t := trimJS s
  if t = "" then .finite 0 1
  else
    let (sg, cs) := parseSign t.toList
    if cs = "Infinity".toList then .inf sg
    else
      match parseDecimal cs with
      | some ((n, d), []) => applySign sg (.finite n d)
      | _ => .nan

/-- JS `parseFloat(string)`: skip leading whitespace, optional sign, then
the longest `Infinity` or decimal-literal prefix; NaN when there is none. -/
def parseFloatJS (s : String) : JSNum :=
  let cs0 := s.toList.dropWhile Char.isWhitespace
  let (sg, cs) := parseSign cs0
  if "Infinity".toList.isPrefixOf cs then .inf sg
  else
    match parseDecimal cs with
    | some ((n, d), _) => applySign sg (.finite n d)
    | none => .nan

/-- JS `parseInt(string)` in base 10: skip whitespace, optional sign,
longest digit prefix; NaN when there is no digit. -/
def parseIntJS (s : String) : JSNum :=
  let cs0 := s.toList.dropWhile Char.isWhitespace
  let (sg, cs) := parseSign cs0
  let (ds, _) := cs.span Char.isDigit
  if ds.isEmpty then .nan
  else applySign sg (.finite (natOfDigits ds : Int) 1)

/-- JS `Number(value)` over the values the validator passes around. -/
def toNumberV : JSValue → JSNum
  | .str s => toNumber s
  | .boolVal b => .finite (if b then 1 else 0) 1
  | .nullV => .finite 0 1
  | .undefinedV => .nan

/-- `parseFloat` applied to a possibly-undefined rule parameter: JS
stringifies `undefined` to "undefined", which parses to NaN. -/
def parseFloatOpt : Option String → JSNum
  | some s => parseFloatJS s
  | none => .nan

/-- `parseInt` applied to a possibly-undefined rule parameter. -/
def parseIntOpt : Option String → JSNum
  | some s => parseIntJS s
  | none => .nan

/-- Host-builtin oracle: the behaviour of RegExp, URL, Date and the
document lookup that the built-in rules call; not part of this repository,
so kept abstract.  `fieldValueById` models
`document.getElementById(id) || document.querySelector(id)` followed by
reading `.value`: `none` when no element is found. -/
structure Host where
  regexTest : String → String → Bool
  urlOk : String → Bool
  dateOk : String → Bool
  fieldValueById : String → Option String

/-- Regex source of the built-in email rule. -/
def emailRe : String := "^[^\\s@]+@[^\\s@]+\\.[^\\s@]+$"

/-- Regex source of the built-in phone rule. -/
def phoneRe : String :=
  "^[\\+]?[(]?[0-9]\x7b1,4\x7d[)]?[-\\s\\.]?[(]?[0-9]\x7b1,4\x7d[)]?[-\\s\\.]?[0-9]\x7b1,9\x7d$"

/-- `value.replace(/\s/g, '')` used by the phone rule. -/
def stripWs (s : String) : String := ⟨s.toList.filter (fun c => ¬ c.isWhitespace)⟩

namespace Rules

/-- `defaultRules.required`: trimmed non-empty for strings, else not
null/undefined/'' under strict equality. -/
def required : JSValue → Bool
  | .str s => 0 < (trimJS s).length
  | v => v ≠ .nullV ∧ v ≠ .undefinedV ∧ v ≠ .str ""

/-- `defaultRules.email`. -/
def email (ext : Host) (v : JSValue) : Bool :=
  if ¬ jsTruthy v then true else ext.regexTest emailRe (jsToString v)

/-- `defaultRules.url`: `new URL(value)` succeeding. -/
def url (ext : Host) (v : JSValue) : Bool :=
  if ¬ jsTruthy v then true else ext.urlOk (jsToString v)

/-- `defaultRules.number`: `!isNaN(value) && !isNaN(parseFloat(value))`. -/
def number (v : JSValue) : Bool :=
  if ¬ jsTruthy v then true
  else !(toNumberV v).isNaN && !(parseFloatJS (jsToString v)).isNaN

/-- `defaultRules.integer`: `Number.isInteger(Number(value))`. -/
def integer (v : JSValue) : Bool :=
  if ¬ jsTruthy v then true else (toNumberV v).isInteger

/-- `defaultRules.min`. -/
def min (v : JSValue) (p : Option String) : Bool :=
  if ¬ jsTruthy v then true
  else
    let num := parseFloatJS (jsToString v)
    !num.isNaN && jsGe num (parseFloatOpt p)

/-- `defaultRules.max`. -/
def max (v : JSValue) (p : Option String) : Bool :=
  if ¬ jsTruthy v then true
  else
    let num := parseFloatJS (jsToString v)
    !num.isNaN && jsLe num (parseFloatOpt p)

/-- `defaultRules.minlength`: `value.toString().length >= parseInt(length)`. -/
def minlength (v : JSValue) (p : Option String) : Bool :=
  if ¬ jsTruthy v then true
  else jsGe (.finite ((jsToString v).length : Int) 1) (parseIntOpt p)

/-- `defaultRules.maxlength`. -/
def maxlength (v : JSValue) (p : Option String) : Bool :=
  if ¬ jsTruthy v then true
  else jsLe (.finite ((jsToString v).length : Int) 1) (parseIntOpt p)

/-- `defaultRules.pattern`: `new RegExp(pattern).test(value)`
(`RegExp(undefined)` is the empty-source regex `(?:)`). -/
def pattern (ext : Host) (v : JSValue) (p : Option String) : Bool :=
  if ¬ jsTruthy v then true
  else ext.regexTest (p.getD "(?:)") (jsToString v)

/-- `defaultRules.phone`: match after stripping whitespace. -/
def phone (ext : Host) (v : JSValue) : Bool :=
  if ¬ jsTruthy v then true
  else ext.regexTest phoneRe (stripWs (jsToString v))

/-- `defaultRules.alphanumeric`. -/
def alphanumeric (ext : Host) (v : JSValue) : Bool :=
  if ¬ jsTruthy v then true else ext.regexTest "^[a-zA-Z0-9]+$" (jsToString v)

/-- `defaultRules.alpha`. -/
def alpha (ext : Host) (v : JSValue) : Bool :=
  if ¬ jsTruthy v then true else ext.regexTest "^[a-zA-Z]+$" (jsToString v)

/-- `defaultRules.date`: `new Date(value)` yields a valid date. -/
def date (ext : Host) (v : JSValue) : Bool :=
  if ¬ jsTruthy v then true else ext.dateOk (jsToString v)

/-- `defaultRules.match` (named `matchRule`, `match` being reserved):
no empty-value guard; a missing target field passes; otherwise strict
equality of the value with the target field's (string) value.  An
undefined parameter stringifies to "undefined" in the lookup. -/
def matchRule (ext : Host) (v : JSValue) (p : Option String) : Bool :=
  match ext.fieldValueById (p.getD "undefined") with
  | none => true
  | some mv => v = .str mv

end Rules

/-- The uniform shape of a registry entry: oracle, value, optional
parameter.  The JS code calls `validator(value, rule.param, field)` when a
parameter is present and `validator(value, field)` otherwise; all built-in
validators read at most `(value, param)`, so the trailing field argument is
dropped and the parameter is an `Option`. -/
def Validator : Type := Host → JSValue → Option String → Bool

/-- The `defaultRules` registry (`this.rules` of an instance constructed
without `customRules`). -/
def defaultRulesReg (name : String) : Option Validator :=
  match name with
  | "required" => some fun _ v _ => Rules.required v
  | "email" => some fun ext v _ => Rules.email ext v
  | "url" => some fun ext v _ => Rules.url ext v
  | "number" => some fun _ v _ => Rules.number v
  | "integer" => some fun _ v _ => Rules.integer v
  | "min" => some fun _ v p => Rules.min v p
  | "max" => some fun _ v p => Rules.max v p
  | "minlength" => some fun _ v p => Rules.minlength v p
  | "maxlength" => some fun _ v p => Rules.maxlength v p
  | "pattern" => some fun ext v p => Rules.pattern ext v p
  | "phone" => some fun ext v _ => Rules.phone ext v
  | "alphanumeric" => some fun ext v _ => Rules.alphanumeric ext v
  | "alpha" => some fun ext v _ => Rules.alpha ext v
  | "date" => some fun ext v _ => Rules.date ext v
  | "match" => some fun ext v p => Rules.matchRule ext v p
  | _ => none

/-- An entry of `this.messages`: either a plain message template for a rule
name, or (for a field name) a per-field table of rule → message overrides. -/
inductive MsgEntry where
  | tmpl : String → MsgEntry
  | perField : List (String × String) → MsgEntry

/-- The `defaultMessages` table. -/
def defaultMessagesMap (name : String) : Option MsgEntry :=
  match name with
  | "required" => some (.tmpl "This field is required")
  | "email" => some (.tmpl "Please enter a valid email address")
  | "url" => some (.tmpl "Please enter a valid URL")
  | "number" => some (.tmpl "Please enter a valid number")
  | "integer" => some (.tmpl "Please enter a valid integer")
  | "min" => some (.tmpl "Value must be at least {0}")
  | "max" => some (.tmpl "Value must be at most {0}")
  | "minlength" => some (.tmpl "Please enter at least {0} characters")
  | "maxlength" => some (.tmpl "Please enter no more than {0} characters")
  | "pattern" => some (.tmpl "Please match the requested format")
  | "phone" => some (.tmpl "Please enter a valid phone number")
  | "alphanumeric" => some (.tmpl "Please use only letters and numbers")
  | "alpha" => some (.tmpl "Please use only letters")
  | "date" => some (.tmpl "Please enter a valid date")
  | "match" => some (.tmpl "Fields do not match")
  | _ => none

/-- A form field as the validator reads it: element tag, the attributes
consulted by `_getFieldRules`/`_getErrorMessage`, and the live properties
consulted by `_getFieldValue` and `validate`.  `customMessage r` models
`field.getAttribute('data-' + r + '-message')`. -/
structure FormField where
  tag : String
  name : Option String
  id : Option String
  ftype : Option String
  required : Bool
  disabled : Bool
  checked : Bool
  value : String
  minAttr : Option String
  maxAttr : Option String
  minlengthAttr : Option String
  maxlengthAttr : Option String
  patternAttr : Option String
  dataValidate : Option String
  customMessage : String → Option String

/-- `field.getAttribute('name') || field.getAttribute('id')` used as an
object key: a missing/empty name falls through to the id as-is; a missing
id leaves `null`, which stringifies to "null" as a property key. -/
def fieldKey (f : FormField) : String :=
  match f.name with
  | some s => if s ≠ "" then s else (match f.id with | some i => i | none => "null")
  | none => match f.id with | some i => i | none => "null"

/-- `_getFieldValue`: checkbox → checked boolean; radio → value of the
checked input of the same name in the form, or '' when none; otherwise the
raw value. -/
def getFieldValue (form : List FormField) (f : FormField) : JSValue :=
  if f.ftype = some "checkbox" then .boolVal f.checked
  else if f.ftype = some "radio" then
    match form.find? (fun g => g.tag == "input" && g.name == f.name && g.checked) with
    | some g => .str g.value
    | none => .str ""
  else .str f.value

/-- A resolved rule: a name plus an optional parameter. -/
structure ResolvedRule where
  name : String
  param : Option String
deriving DecidableEq, Repr

/-- JS `String.prototype.split` with a single-character separator. -/
def splitChar (sep : Char) : List Char → List (List Char)
  | [] => [[]]
  | c :: cs =>
    if c = sep then [] :: splitChar sep cs
    else
      match splitChar sep cs with
      | [] => [[c]]
      | g :: gs => (c :: g) :: gs

def jsSplit (sep : Char) (s : String) : List String :=
  (splitChar sep s.toList).map fun l => ⟨l⟩

/-- One `data-validate` token: `const [name, param] = rule.split(':')`
takes the first two segments; `param ? param.trim() : undefined` turns an
empty second segment into no parameter. -/
def parseToken (tok : String) : ResolvedRule :=
  let parts := jsSplit ':' tok
  let name := trimJS (parts.headD "")
  let param :=
    match parts[1]? with
    | some p => if p = "" then none else some (trimJS p)
    | none => none
  ⟨name, param⟩

def attrRule (name : String) (attr : Option String) : List ResolvedRule :=
  match attr with
  | some p => [⟨name, some p⟩]
  | none => []

/-- The type-implied rule of `_getFieldRules` (the if/else chain on the
type attribute). -/
def typeRule (f : FormField) : List ResolvedRule :=
  match f.ftype with
  | some "email" => [⟨"email", none⟩]
  | some "url" => [⟨"url", none⟩]
  | some "number" => [⟨"number", none⟩]
  | some "tel" => [⟨"phone", none⟩]
  | some "date" => [⟨"date", none⟩]
  | _ => []

/-- `_getFieldRules`: required, type-implied rule, min, max, minlength,
maxlength, pattern, then the `|`-separated `data-validate` tokens, in
source push order. -/
def getFieldRules (f : FormField) : List ResolvedRule :=
  (if f.required then [⟨"required", none⟩] else [])
    ++ typeRule f
    ++ attrRule "min" f.minAttr
    ++ attrRule "max" f.maxAttr
    ++ attrRule "minlength" f.minlengthAttr
    ++ attrRule "maxlength" f.maxlengthAttr
    ++ attrRule "pattern" f.patternAttr
    ++ (match f.dataValidate with
        | some s => (jsSplit '|' s).map parseToken
        | none => [])

/-- Replace the first occurrence of `pat` in a character list
(JS `String.prototype.replace` with a string pattern). -/
def replaceFirstL (pat rep : List Char) : List Char → List Char
  | [] => []
  | c :: cs =>
    if pat.isPrefixOf (c :: cs) then rep ++ (c :: cs).drop pat.length
    else c :: replaceFirstL pat rep cs

def replaceFirst (s pat rep : String) : String :=
  ⟨replaceFirstL pat.toList rep.toList s.toList⟩

def lookupStr (l : List (String × String)) (k : String) : Option String :=
  (l.find? (fun kv => kv.1 == k)).map (·.2)

/-- `_getErrorMessage`: (a) truthy `data-<rule>-message` attribute wins,
verbatim; (b) else a truthy per-field-name entry `messages[fieldName][rule]`
wins, verbatim (a plain string template under the field name has no such
property and is skipped); (c) else the registered template (falsy template
falls back to 'Invalid value'), with the parameter substituted for the
first `{0}` only when a parameter is present. -/
def getErrorMessage (msgs : String → Option MsgEntry) (ruleName : String)
    (param : Option String) (f : FormField) : String :=
  let custom := (f.customMessage ruleName).getD ""
  if custom ≠ "" then custom
  else
    let fieldName := fieldKey f
    let fieldMsg : Option String :=
      match msgs fieldName with
      | some (.perField tbl) =>
        match lookupStr tbl ruleName with
        | some s => if s = "" then none else some s
        | none => none
      | _ => none
    match fieldMsg with
    | some s => s
    | none =>
      let message :=
        match msgs ruleName with
        | some (.tmpl s) => if s = "" then "Invalid value" else s
        | _ => "Invalid value"
      match param with
      | some p => replaceFirst message "{0}" p
      | none => message

/-- The persistent record of one failed field (`this.errors[fieldName]`);
the non-owning `field` reference kept by the source for focus/scroll is not
part of the observable validation state and is omitted. -/
structure FieldError where
  rule : String
  message : String
deriving DecidableEq, Repr

/-- `this.errors`: a JS object keyed by field name, as an association list. -/
abbrev ErrorMap : Type := List (String × FieldError)

def lookupErr : ErrorMap → String → Option FieldError
  | [], _ => none
  | (k, v) :: rest, key => if k = key then some v else lookupErr rest key

/-- The rule loop of `validateField`: unknown rule names are skipped
(`console.warn` diagnostic), otherwise the first falsy validator result
produces the FieldError and stops the loop (`break`). -/
def runRules (reg : String → Option Validator) (msgs : String → Option MsgEntry)
    (host : Host) (f : FormField) (value : JSValue) :
    List ResolvedRule → Option FieldError
  | [] => none
  | r :: rs =>
    match reg r.name with
    | none => runRules reg msgs host f value rs
    | some validator =>
      if validator host value r.param then runRules reg msgs host f value rs
      else some ⟨r.name, getErrorMessage msgs r.name r.param f⟩

/-- `validateField` effect on the error map: read value and rules, delete
the field's entry, then insert the first failure (if any). -/
def validateField (reg : String → Option Validator) (msgs : String → Option MsgEntry)
    (host : Host) (form : List FormField) (f : FormField) (errors : ErrorMap) : ErrorMap :=
  let fieldName := fieldKey f
  let value := getFieldValue form f
  let rules := getFieldRules f
  let cleared := errors.filter (fun kv => kv.1 ≠ fieldName)
  match runRules reg msgs host f value rules with
  | some fe => cleared ++ [(fieldName, fe)]
  | none => cleared

/-- The boolean returned by `validateField`: `!this.errors[fieldName]` on
the updated map. -/
def validateFieldRet (reg : String → Option Validator) (msgs : String → Option MsgEntry)
    (host : Host) (form : List FormField) (f : FormField) (errors : ErrorMap) : Bool :=
  (lookupErr (validateField reg msgs host form f errors) (fieldKey f)).isNone

/-- The error map set by the constructor (`this.errors = {}`). -/
def initialErrors : ErrorMap := []

/-- `isValid()`: `Object.keys(this.errors).length === 0`. -/
def isValid (errors : ErrorMap) : Bool := errors.length = 0

/-- The field selector of `validate`:
`input:not([type="submit"]):not([type="button"]), select, textarea`. -/
def eligibleField (f : FormField) : Bool :=
  (f.tag == "input" && f.ftype ≠ some "submit" && f.ftype ≠ some "button")
    || f.tag == "select" || f.tag == "textarea"

/-- `validate(callback?)`: `this.errors = {}` discards the prior map, then
every eligible non-disabled field is run through `validateField` in
document order; the result is `Object.keys(this.errors).length === 0`
together with the final map.  (Focus/scroll and the callback are DOM side
effects of the result and do not alter it; the function is total — no
exception path exists for a validation failure.) -/
def validate (reg : String → Option Validator) (msgs : String → Option MsgEntry)
    (host : Host) (_prior : ErrorMap) (form : List FormField) : Bool × ErrorMap :=
  let reset : ErrorMap := []
  let errors := form.foldl
    (fun errs f =>
      if eligibleField f && !f.disabled then validateField reg msgs host form f errs
      else errs)
    reset
  (isValid errors, errors)

/-- The style options consulted by the UI synchronizer. -/
structure UIOptions where
  errorClass : String
  successClass : String
  errorMessageClass : String
deriving DecidableEq

/-- An injected error-message node: its class, text content, and the
`data-error-for` attribute it is tagged with. -/
structure MsgNode where
  cls : String
  text : String
  errorFor : String
deriving DecidableEq, Repr

/-- The presentation state touched by `_updateFieldUI`: the field's
classList and the children of the field's wrapper that carry a
`data-error-for` tag (other wrapper children are never read or written). -/
structure UIState where
  classes : List String
  msgs : List MsgNode
deriving DecidableEq, Repr

/-- `classList.add`: a token already present is not duplicated. -/
def classAdd (l : List String) (c : String) : List String :=
  if c ∈ l then l else l ++ [c]

/-- `wrapper.querySelector('[data-error-for=...]')` followed by
`.remove()`: deletes the first matching node only. -/
def removeFirstErrorMsg (key : String) : List MsgNode → List MsgNode
  | [] => []
  | n :: ns => if n.errorFor = key then ns else n :: removeFirstErrorMsg key ns

/-- `_updateFieldUI` (with `_removeErrorMessage`/`_showErrorMessage`
inlined at their call sites): strip both state classes; add the error class
when the field has an entry in the error map, else the success class when
the field's value is truthy; remove the first previously injected message
node tagged with the field's key; finally, when invalid, append a fresh
message node carrying the recorded message and the key. -/
def updateFieldUI (opts : UIOptions) (errors : ErrorMap) (f : FormField)
    (fieldName : String) (ui : UIState) : UIState :=
  let hasError := (lookupErr errors fieldName).isSome
  let cls := ui.classes.filter (fun c => c ≠ opts.errorClass && c ≠ opts.successClass)
  let cls :=
    if hasError then classAdd cls opts.errorClass
    else if f.value ≠ "" then classAdd cls opts.successClass
    else cls
  let key := fieldKey f
  let msgs := removeFirstErrorMsg key ui.msgs
  let msgs :=
    match lookupErr errors fieldName with
    | some fe => msgs ++ [⟨opts.errorMessageClass, fe.message, key⟩]
    | none => msgs
  ⟨cls, msgs⟩

/-- Number of injected message nodes tagged for `key`. -/
def countTagged (l : List MsgNode) (key : String) : Nat :=
  (l.filter (fun n => n.errorFor == key)).length

/-- "Empty" in the spec's sense: empty string, null, or undefined. -/
def isEmptyValue (v : JSValue) : Prop :=
  v = .str "" ∨ v = .nullV ∨ v = .undefinedV

/-- The field of the C2 counterexample: only a `data-validate` annotation
with the token `pattern:a:b`. -/
def c2Field : FormField :=
  { tag := "input", name := some "f", id := none, ftype := some "text"
    required := false, disabled := false, checked := false, value := ""
    minAttr := none, maxAttr := none, minlengthAttr := none
    maxlengthAttr := none, patternAttr := none
    dataValidate := some "pattern:a:b"
    customMessage := fun _ => none }

/-- A host in which the document contains a field `other` holding `"x"`. -/
def c3Host : Host :=
  { regexTest := fun _ _ => true, urlOk := fun _ => true, dateOk := fun _ => true
    fieldValueById := fun i => if i = "other" then some "x" else none }

/-- Modelled from the claim's words: the value "parses as a finite numeric
value" (finite under full-string conversion and under the float parse). -/
def parsesAsFiniteNumeric (s : String) : Bool :=
  (toNumber s).isFinite && (parseFloatJS s).isFinite

/-- Number of entries of the error map carrying the given key. -/
def countKey (E : ErrorMap) (k : String) : Nat :=
  (E.filter (fun kv => kv.1 == k)).length

/-- A C5 witness field: `<input type="email" required>` named `em`, empty. -/
def c5Field : FormField :=
  { tag := "input", name := some "em", id := none, ftype := some "email"
    required := true, disabled := false, checked := false, value := ""
    minAttr := none, maxAttr := none, minlengthAttr := none
    maxlengthAttr := none, patternAttr := none, dataValidate := none
    customMessage := fun _ => none }

/-- A C7 witness field: an enabled empty required text input named `a`. -/
def c7FieldA : FormField :=
  { tag := "input", name := some "a", id := none, ftype := some "text"
    required := true, disabled := false, checked := false, value := ""
    minAttr := none, maxAttr := none, minlengthAttr := none
    maxlengthAttr := none, patternAttr := none, dataValidate := none
    customMessage := fun _ => none }

/-- A C7 witness field: a disabled empty required text input named `b`. -/
def c7FieldB : FormField :=
  { tag := "input", name := some "b", id := none, ftype := some "text"
    required := true, disabled := true, checked := false, value := ""
    minAttr := none, maxAttr := none, minlengthAttr := none
    maxlengthAttr := none, patternAttr := none, dataValidate := none
    customMessage := fun _ => none }

/-- The C7 witness form. -/
def c7Form : List FormField := [c7FieldA, c7FieldB]

/-- Default styling options of the engine. -/
def defaultUIOptions : UIOptions :=
  { errorClass := "is-invalid", successClass := "is-valid"
    errorMessageClass := "invalid-feedback" }

/-- A C8 witness field: an empty required text input named `e`. -/
def c8Field : FormField :=
  { tag := "input", name := some "e", id := none, ftype := some "text"
    required := true, disabled := false, checked := false, value := ""
    minAttr := none, maxAttr := none, minlengthAttr := none
    maxlengthAttr := none, patternAttr := none, dataValidate := none
    customMessage := fun _ => none }

/-- A C8 witness error map: field `e` failed `required`. -/
def c8Errors : ErrorMap := [("e", ⟨"required", "This field is required"⟩)]

/-- A C8 witness wrapper state: one unrelated class, no injected nodes. -/
def c8UI : UIState := { classes := ["form-control"], msgs := [] }

/-- A C9 message registry whose `minlength` template holds two
placeholders. -/
def c9Msgs (name : String) : Option MsgEntry :=
  if name = "minlength" then some (.tmpl "{0} and {0}") else none

/-- A C9 field with no custom message attributes, named `p`. -/
def c9Field : FormField :=
  { tag := "input", name := some "p", id := none, ftype := some "text"
    required := false, disabled := false, checked := false, value := ""
    minAttr := none, maxAttr := none, minlengthAttr := none
    maxlengthAttr := none, patternAttr := none, dataValidate := none
    customMessage := fun _ => none }

/-- A C9 witness field carrying `data-email-message="Custom!"`. -/
def c9FieldCustom : FormField :=
  { tag := "input", name := some "q", id := none, ftype := some "email"
    required := false, disabled := false, checked := false, value := ""
    minAttr := none, maxAttr := none, minlengthAttr := none
    maxlengthAttr := none, patternAttr := none, dataValidate := none
    customMessage := fun r => if r = "email" then some "Custom!" else none }

/-- A C9 witness registry with a per-field override for field `p`, rule
`required`. -/
def c9MsgsOverride (name : String) : Option MsgEntry :=
  if name = "p" then some (.perField [("required", "Fill p in")])
  else defaultMessagesMap name

/-- The C10 field: `<input type="checkbox" required>` named `cb`,
unchecked. -/
def checkboxField : FormField :=
  { tag := "input", name := some "cb", id := none, ftype := some "checkbox"
    required := true, disabled := false, checked := false, value := "on"
    minAttr := none, maxAttr := none, minlengthAttr := none
    maxlengthAttr := none, patternAttr := none, dataValidate := none
    customMessage := fun _ => none }


/-- The per-field outcome entry contributed by one field during a full
`validate` pass. -/
def fieldEntry (reg : String → Option Validator) (msgs : String → Option MsgEntry)
    (host : Host) (form : List FormField) (f : FormField) :
    Option (String × FieldError) :=
  if eligibleField f && !f.disabled then
    (runRules reg msgs host f (getFieldValue form f) (getFieldRules f)).map
      (fun fe => (fieldKey f, fe))
  else none

/-- C1 counterexample: on a freshly constructed validator the error map is
the empty object and `isValid()` returns `true`, refuting the claim that it
returns `false` before the first validation pass. -/
theorem c1_fresh_isValid_not_false : ¬ (isValid initialErrors = false) := by decide

/-- C1 (amended): for a freshly constructed validator, on which neither
`validate()` nor `validateField()` has been called, `isValid()` returns
`true` (the empty error map has zero keys). -/
theorem c1_fresh_isValid_true : isValid initialErrors = true := by decide


/-- C2 counterexample: for the token `pattern:a:b` (two `:` characters) the
resolver yields the parameter `"a"` — the segment between the first and
second `:` — and not `"a:b"`, the full substring after the first `:` that
the claim requires. -/
theorem c2_colon_token_param :
    getFieldRules c2Field = [⟨"pattern", some "a"⟩] ∧ some "a" ≠ some "a:b" := by decide


theorem jsTruthy_empty (v : JSValue) (h : isEmptyValue v) : jsTruthy v = false := by
  rcases h with rfl | rfl | rfl <;> rfl

/-- C3 counterexample: the built-in `match` rule — a rule other than
`required` — with parameter `"other"` fails on the empty-string value when
the target field exists and holds a different value, refuting "empty always
passes for every rule but required". -/
theorem c3_match_fails_on_empty :
    defaultRulesReg "match" = some (fun host v p => Rules.matchRule host v p)
    ∧ Rules.matchRule c3Host (.str "") (some "other") = false := by
  exact ⟨rfl, by decide⟩

/-- C3 (amended): every built-in rule other than `required` and `match`
passes on an empty value (empty string, null or undefined) for every
parameter and every host behaviour; `match` has no empty-value guard — on
an empty value it passes exactly when the target field is missing, or when
the value is the empty string and the target field's value is also the
empty string. -/
theorem c3_empty_passes_except_required_match :
    (∀ name vd, name ≠ "required" → name ≠ "match" → defaultRulesReg name = some vd →
      ∀ (host : Host) (v : JSValue) (p : Option String), isEmptyValue v → vd host v p = true)
    ∧ (∀ (host : Host) (v : JSValue) (p : Option String), isEmptyValue v →
        (Rules.matchRule host v p = true ↔
          host.fieldValueById (p.getD "undefined") = none ∨
            (v = .str "" ∧ host.fieldValueById (p.getD "undefined") = some ""))) := by
  constructor
  · intro name vd hreq hmatch hvd host v p hemp
    have ht := jsTruthy_empty v hemp
    unfold defaultRulesReg at hvd
    split at hvd
    · exact absurd rfl hreq
    · injection hvd with h; subst h; simp [Rules.email, ht]
    · injection hvd with h; subst h; simp [Rules.url, ht]
    · injection hvd with h; subst h; simp [Rules.number, ht]
    · injection hvd with h; subst h; simp [Rules.integer, ht]
    · injection hvd with h; subst h; simp [Rules.min, ht]
    · injection hvd with h; subst h; simp [Rules.max, ht]
    · injection hvd with h; subst h; simp [Rules.minlength, ht]
    · injection hvd with h; subst h; simp [Rules.maxlength, ht]
    · injection hvd with h; subst h; simp [Rules.pattern, ht]
    · injection hvd with h; subst h; simp [Rules.phone, ht]
    · injection hvd with h; subst h; simp [Rules.alphanumeric, ht]
    · injection hvd with h; subst h; simp [Rules.alpha, ht]
    · injection hvd with h; subst h; simp [Rules.date, ht]
    · exact absurd rfl hmatch
    · exact Option.noConfusion hvd
  · intro host v p hemp
    unfold Rules.matchRule
    rcases hfv : host.fieldValueById (p.getD "undefined") with _ | mv
    · simp
    · rcases hemp with rfl | rfl | rfl
      · simp [hfv, eq_comm]
      · simp [hfv]
      · simp [hfv]

/-- Witness for C3 (amended), at `minlength` with parameter 8 on the empty
string and at `match` on a null value with a missing target. -/
theorem c3_empty_passes_witness :
    Rules.minlength (.str "") (some "8") = true
    ∧ (Rules.matchRule c3Host .nullV (some "nope") = true ↔
        c3Host.fieldValueById ((some "nope").getD "undefined") = none ∨
          (JSValue.nullV = .str "" ∧
            c3Host.fieldValueById ((some "nope").getD "undefined") = some "")) :=
  ⟨c3_empty_passes_except_required_match.1 "minlength" _ (by decide) (by decide) rfl
      c3Host (.str "") (some "8") (Or.inl rfl),
   c3_empty_passes_except_required_match.2 c3Host .nullV (some "nope") (Or.inr (Or.inl rfl))⟩


/-- C4 counterexample: the string `"Infinity"` does not parse as a finite
numeric value, yet the built-in `number` rule passes on it — `isNaN` is
false on a non-finite number. -/
theorem c4_infinity_passes :
    Rules.number (.str "Infinity") = true ∧ parsesAsFiniteNumeric "Infinity" = false := by
  decide

/-- C4 (amended): the `number` rule passes on every empty value; on a
non-empty string it passes if and only if neither the full-string numeric
conversion nor the float prefix parse yields NaN — finiteness is not
required, so non-finite inputs such as `"Infinity"` pass. -/
theorem c4_number_rule_semantics :
    (∀ v, isEmptyValue v → Rules.number v = true)
    ∧ (∀ s : String, s ≠ "" →
        Rules.number (.str s) = (!(toNumber s).isNaN && !(parseFloatJS s).isNaN)) := by
  constructor
  · intro v hemp
    simp [Rules.number, jsTruthy_empty v hemp]
  · intro s hs
    simp [Rules.number, jsTruthy, hs, toNumberV, jsToString]

/-- Witness for C4 (amended) at the null value and the string `"Infinity"`. -/
theorem c4_number_rule_witness :
    Rules.number .nullV = true
    ∧ Rules.number (.str "Infinity")
        = (!(toNumber "Infinity").isNaN && !(parseFloatJS "Infinity").isNaN) :=
  ⟨c4_number_rule_semantics.1 .nullV (Or.inr (Or.inl rfl)),
   c4_number_rule_semantics.2 "Infinity" (by decide)⟩


theorem splitChar_sep_append (sep : Char) (a rest : List Char) (ha : sep ∉ a) :
    splitChar sep (a ++ sep :: rest) = a :: splitChar sep rest := by
  induction a with
  | nil => simp [splitChar]
  | cons c a ih =>
    have hc : c ≠ sep := by
      intro h; exact ha (by simp [h])
    have ha' : sep ∉ a := fun h => ha (List.mem_cons_of_mem _ h)
    have ih' := ih ha'
    simp only [List.cons_append, splitChar, if_neg hc]
    rw [show a.append (sep :: rest) = a ++ sep :: rest from rfl, ih']

/-- C2 (amended): a `data-validate` token is split on every `:`; the rule
name is the first segment trimmed, and the parameter is the segment between
the first and second `:` trimmed (an empty second segment means no
parameter); anything after the second `:` is discarded. -/
theorem c2_token_second_segment (a b c : String)
    (ha : ':' ∉ a.toList) (hb : ':' ∉ b.toList) :
    parseToken (a ++ ":" ++ b ++ ":" ++ c) =
      ⟨trimJS a, if b = "" then none else some (trimJS b)⟩ := by
  have htl : (a ++ ":" ++ b ++ ":" ++ c).toList
      = a.toList ++ ':' :: (b.toList ++ ':' :: c.toList) := by
    show (a ++ ":" ++ b ++ ":" ++ c).data = a.data ++ ':' :: (b.data ++ ':' :: c.data)
    simp [String.data_append]
  have hsplit : splitChar ':' ((a ++ ":" ++ b ++ ":" ++ c).toList)
      = a.toList :: b.toList :: splitChar ':' c.toList := by
    rw [htl, splitChar_sep_append ':' _ _ ha, splitChar_sep_append ':' _ _ hb]
  unfold parseToken jsSplit
  rw [hsplit]
  simp only [List.map_cons, List.headD_cons, List.getElem?_cons_succ, List.getElem?_cons_zero]
  rfl

/-- Witness for C2 (amended) at the token `pattern:a:b`. -/
theorem c2_token_second_segment_witness :
    parseToken ("pattern" ++ ":" ++ "a" ++ ":" ++ "b") = ⟨"pattern", some "a"⟩ := by
  rw [c2_token_second_segment "pattern" "a" "b" (by decide) (by decide)]
  decide

theorem lookupErr_filter_ne (E : ErrorMap) (k : String) :
    lookupErr (E.filter fun kv => kv.1 ≠ k) k = none := by
  induction E with
  | nil => rfl
  | cons kv E ih =>
    by_cases h : kv.1 = k
    · simpa [List.filter, h] using ih
    · simpa [List.filter, h, lookupErr] using ih

theorem lookupErr_append_none (E₁ E₂ : ErrorMap) (k : String)
    (h : lookupErr E₁ k = none) : lookupErr (E₁ ++ E₂) k = lookupErr E₂ k := by
  induction E₁ with
  | nil => rfl
  | cons kv E₁ ih =>
    by_cases hk : kv.1 = k
    · simp [lookupErr, hk] at h
    · simp only [lookupErr, hk, if_neg hk, List.cons_append] at h ⊢
      exact ih h

theorem countKey_filter_ne (E : ErrorMap) (k : String) :
    countKey (E.filter fun kv => kv.1 ≠ k) k = 0 := by
  induction E with
  | nil => rfl
  | cons kv E ih =>
    by_cases h : kv.1 = k
    · simpa [List.filter, h] using ih
    · simpa [countKey, List.filter, h] using ih

theorem countKey_append (E₁ E₂ : ErrorMap) (k : String) :
    countKey (E₁ ++ E₂) k = countKey E₁ k + countKey E₂ k := by
  simp [countKey, List.filter_append]

/-- C5: when a field is marked `required`, the Rule Resolver emits
`required` as the very first resolved rule; and because the Field Evaluator
runs rules in order and stops at the first failure, a `required` field of a
type-implied category (email/url/number/tel/date) holding an empty value
always records a FieldError whose rule name is `required`, never the
type-implied rule's name. -/
theorem c5_required_first_wins :
    (∀ g : FormField, g.required = true →
      (getFieldRules g).head? = some ⟨"required", none⟩)
    ∧ (∀ (msgs : String → Option MsgEntry) (host : Host) (form : List FormField)
        (errors : ErrorMap) (f : FormField), f.required = true →
        (f.ftype = some "email" ∨ f.ftype = some "url" ∨ f.ftype = some "number"
          ∨ f.ftype = some "tel" ∨ f.ftype = some "date") →
        f.value = "" →
        (lookupErr (validateField defaultRulesReg msgs host form f errors)
            (fieldKey f)).map FieldError.rule = some "required") := by
  have hfirst : ∀ g : FormField, g.required = true →
      (getFieldRules g).head? = some ⟨"required", none⟩ := by
    intro g hg
    simp [getFieldRules, hg]
  refine ⟨hfirst, ?_⟩
  intro msgs host form errors f hreq htype hval
  have hv : getFieldValue form f = .str "" := by
    rcases htype with h | h | h | h | h <;> simp [getFieldValue, h, hval]
  obtain ⟨rs, hrs⟩ : ∃ rs, getFieldRules f = ⟨"required", none⟩ :: rs := by
    have h1 := hfirst f hreq
    cases hl : getFieldRules f with
    | nil => rw [hl] at h1; exact absurd h1 (by simp)
    | cons r rs =>
      rw [hl] at h1
      simp only [List.head?_cons, Option.some.injEq] at h1
      exact ⟨rs, by rw [h1]⟩
  have hrun : runRules defaultRulesReg msgs host f (getFieldValue form f) (getFieldRules f)
      = some ⟨"required", getErrorMessage msgs "required" none f⟩ := by
    rw [hrs, hv]
    have hfail : Rules.required (.str "") = false := by decide
    simp [runRules, defaultRulesReg, hfail]
  simp only [validateField, hrun]
  rw [lookupErr_append_none _ _ _ (lookupErr_filter_ne errors (fieldKey f))]
  simp [lookupErr]

/-- Witness for C5 at an empty `<input type="email" required>`. -/
theorem c5_required_first_wins_witness :
    (getFieldRules c5Field).head? = some ⟨"required", none⟩
    ∧ (lookupErr (validateField defaultRulesReg defaultMessagesMap c3Host [c5Field]
          c5Field []) (fieldKey c5Field)).map FieldError.rule = some "required" :=
  ⟨c5_required_first_wins.1 c5Field rfl,
   c5_required_first_wins.2 defaultMessagesMap c3Host [c5Field] [] c5Field rfl
      (Or.inl rfl) rfl⟩

/-- C6: after any `validateField(field)` call the error map holds at most
one entry under the field's key; an entry is present exactly when this
evaluation of the field failed (its first failing rule exists); and the
call's boolean result is true exactly when no entry under the key remains.
A field moving from invalid to valid therefore has its entry removed
entirely. -/
theorem c6_validateField_entry_iff_failed (reg : String → Option Validator)
    (msgs : String → Option MsgEntry) (host : Host) (form : List FormField)
    (f : FormField) (errors : ErrorMap) :
    countKey (validateField reg msgs host form f errors) (fieldKey f) ≤ 1
    ∧ ((lookupErr (validateField reg msgs host form f errors) (fieldKey f)).isSome
        ↔ runRules reg msgs host f (getFieldValue form f) (getFieldRules f) ≠ none)
    ∧ (validateFieldRet reg msgs host form f errors = true
        ↔ lookupErr (validateField reg msgs host form f errors) (fieldKey f) = none) := by
  have hclear := lookupErr_filter_ne errors (fieldKey f)
  have hcount := countKey_filter_ne errors (fieldKey f)
  cases hrun : runRules reg msgs host f (getFieldValue form f) (getFieldRules f) with
  | none =>
    have hE : validateField reg msgs host form f errors
        = errors.filter (fun kv => kv.1 ≠ fieldKey f) := by
      simp only [validateField, hrun]
    refine ⟨?_, ?_, ?_⟩
    · rw [hE, hcount]; exact Nat.zero_le 1
    · rw [hE, hclear]; simp
    · simp [validateFieldRet, hE, hclear]
  | some fe =>
    have hE : validateField reg msgs host form f errors
        = errors.filter (fun kv => kv.1 ≠ fieldKey f) ++ [(fieldKey f, fe)] := by
      simp only [validateField, hrun]
    have hlook : lookupErr (validateField reg msgs host form f errors) (fieldKey f)
        = some fe := by
      rw [hE, lookupErr_append_none _ _ _ hclear]
      simp [lookupErr]
    refine ⟨?_, ?_, ?_⟩
    · rw [hE, countKey_append, hcount]
      simp [countKey]
    · rw [hlook]; simp
    · simp [validateFieldRet, hlook]

theorem filter_ne_eq_self_of_lookup_none (E : ErrorMap) (k : String)
    (h : lookupErr E k = none) : E.filter (fun kv => kv.1 ≠ k) = E := by
  induction E with
  | nil => rfl
  | cons kv E ih =>
    by_cases hk : kv.1 = k
    · simp [lookupErr, hk] at h
    · simp only [lookupErr, if_neg hk] at h
      rw [List.filter_cons, if_pos (by simp [hk]), ih h]

theorem validateField_append_of_fresh (reg : String → Option Validator)
    (msgs : String → Option MsgEntry) (host : Host) (form : List FormField)
    (f : FormField) (acc : ErrorMap) (h : lookupErr acc (fieldKey f) = none) :
    validateField reg msgs host form f acc
      = acc ++ ((runRules reg msgs host f (getFieldValue form f)
          (getFieldRules f)).map (fun fe => (fieldKey f, fe))).toList := by
  simp only [validateField, filter_ne_eq_self_of_lookup_none acc (fieldKey f) h]
  cases runRules reg msgs host f (getFieldValue form f) (getFieldRules f) <;> simp

theorem validate_foldl_characterization (reg : String → Option Validator)
    (msgs : String → Option MsgEntry) (host : Host) (form : List FormField)
    (fs : List FormField) (acc : ErrorMap)
    (hfresh : ∀ f ∈ fs, lookupErr acc (fieldKey f) = none)
    (hnd : (fs.map fieldKey).Nodup) :
    fs.foldl (fun errs f =>
        if eligibleField f && !f.disabled then validateField reg msgs host form f errs
        else errs) acc
      = acc ++ fs.filterMap (fieldEntry reg msgs host form) := by
  induction fs generalizing acc with
  | nil => simp
  | cons f fs ih =>
    rw [List.map_cons, List.nodup_cons] at hnd
    obtain ⟨hnotin, hndtail⟩ := hnd
    have hfr := hfresh f (List.Mem.head _)
    by_cases hel : (eligibleField f && !f.disabled) = true
    · have hstep := validateField_append_of_fresh reg msgs host form f acc hfr
      have hfresh' : ∀ g ∈ fs,
          lookupErr (validateField reg msgs host form f acc) (fieldKey g) = none := by
        intro g hg
        rw [hstep, lookupErr_append_none _ _ _ (hfresh g (List.Mem.tail _ hg))]
        cases hr : runRules reg msgs host f (getFieldValue form f) (getFieldRules f) with
        | none => rfl
        | some fe =>
          have hne : fieldKey f ≠ fieldKey g := by
            intro h
            exact hnotin (h ▸ List.mem_map_of_mem fieldKey hg)
          simp [lookupErr, hne]
      rw [List.foldl_cons, if_pos hel, ih _ hfresh' hndtail, hstep,
        List.append_assoc, List.filterMap_cons]
      have hentry : fieldEntry reg msgs host form f
          = (runRules reg msgs host f (getFieldValue form f)
              (getFieldRules f)).map (fun fe => (fieldKey f, fe)) := by
        simp [fieldEntry, hel]
      cases hr : runRules reg msgs host f (getFieldValue form f) (getFieldRules f) with
      | none => simp [hentry, hr]
      | some fe => simp [hentry, hr]
    · have hel' : (eligibleField f && !f.disabled) = false := by
        revert hel; cases eligibleField f && !f.disabled <;> simp
      rw [List.foldl_cons, if_neg (by rw [hel']; exact Bool.false_ne_true),
        ih _ (fun g hg => hfresh g (List.Mem.tail _ hg)) hndtail,
        List.filterMap_cons]
      simp [fieldEntry, hel']

theorem lookupErr_filterMap_none (P : FormField → Option (String × FieldError))
    (l : List FormField) (k : String)
    (h : ∀ g ∈ l, ∀ e, P g = some e → e.1 ≠ k) :
    lookupErr (l.filterMap P) k = none := by
  induction l with
  | nil => rfl
  | cons g l ih =>
    rw [List.filterMap_cons]
    cases hP : P g with
    | none => exact ih fun g' hg' => h g' (List.Mem.tail _ hg')
    | some e =>
      have hne := h g (List.Mem.head _) e hP
      simp only [lookupErr, if_neg hne]
      exact ih fun g' hg' => h g' (List.Mem.tail _ hg')

/-- C7: `validate` first resets the error map (its result is independent of
any prior error state), runs every eligible non-disabled field — the final
map is exactly the ordered collection of the per-field first failures, so
the pass never stops early at the form level — skips disabled fields
entirely (they are never reported), and returns true exactly when the final
map is empty.  Validation failures are data: the function is total, with no
exception channel. -/
theorem c7_validate_full_pass (reg : String → Option Validator)
    (msgs : String → Option MsgEntry) (host : Host) (prior : ErrorMap)
    (form : List FormField) (hnd : (form.map fieldKey).Nodup) :
    ((validate reg msgs host prior form).1 = true
      ↔ (validate reg msgs host prior form).2 = [])
    ∧ (validate reg msgs host prior form).2
        = form.filterMap (fieldEntry reg msgs host form)
    ∧ (∀ f ∈ form, f.disabled = true →
        lookupErr (validate reg msgs host prior form).2 (fieldKey f) = none)
    ∧ (∀ prior2, validate reg msgs host prior2 form = validate reg msgs host prior form) := by
  have hchar : (validate reg msgs host prior form).2
      = form.filterMap (fieldEntry reg msgs host form) := by
    show form.foldl _ ([] : ErrorMap) = _
    rw [validate_foldl_characterization reg msgs host form form []
      (fun _ _ => rfl) hnd]
    rfl
  refine ⟨?_, hchar, ?_, fun prior2 => rfl⟩
  · show isValid ((validate reg msgs host prior form).2) = true ↔ _
    cases (validate reg msgs host prior form).2 <;> simp [isValid]
  · intro f hf hdis
    rw [hchar]
    apply lookupErr_filterMap_none
    intro g hg e hPg hek
    have hcond : (eligibleField g && !g.disabled) = true := by
      by_cases hc : (eligibleField g && !g.disabled) = true
      · exact hc
      · have : fieldEntry reg msgs host form g = none := by
          simp only [fieldEntry, if_neg hc]
        rw [this] at hPg
        exact Option.noConfusion hPg
    have he1 : e.1 = fieldKey g := by
      simp only [fieldEntry, if_pos hcond, Option.map_eq_some'] at hPg
      obtain ⟨fe, _, rfl⟩ := hPg
      rfl
    have hgf : g = f := by
      exact List.inj_on_of_nodup_map hnd hg hf (by rw [← he1, hek])
    rw [hgf] at hcond
    rw [hdis] at hcond
    simp [Bool.and_eq_true] at hcond

/-- Witness for C7 on a two-field form whose disabled field `b` is not
reported even though it would fail `required`. -/
theorem c7_validate_full_pass_witness :
    lookupErr (validate defaultRulesReg defaultMessagesMap c3Host [] c7Form).2
        (fieldKey c7FieldB) = none :=
  (c7_validate_full_pass defaultRulesReg defaultMessagesMap c3Host [] c7Form
      (by decide)).2.2.1 c7FieldB (List.Mem.tail _ (List.Mem.head _)) rfl

theorem filter_filter_self {α : Type} (p : α → Bool) (l : List α) :
    (l.filter p).filter p = l.filter p := by
  induction l with
  | nil => rfl
  | cons a l ih =>
    by_cases hp : p a = true
    · simp [List.filter_cons, hp, ih]
    · simp [List.filter_cons, hp, ih]

theorem filter_classAdd (p : String → Bool) (l : List String) (c : String)
    (hc : p c = false) : (classAdd l c).filter p = l.filter p := by
  unfold classAdd
  by_cases hm : c ∈ l
  · simp [hm]
  · simp [hm, List.filter_append, List.filter_cons, hc]

theorem countTagged_cons (n : MsgNode) (ns : List MsgNode) (k : String) :
    countTagged (n :: ns) k = (if n.errorFor = k then 1 else 0) + countTagged ns k := by
  by_cases h : n.errorFor = k
  · simp [countTagged, List.filter_cons, h]
    omega
  · simp [countTagged, List.filter_cons, h]

theorem countTagged_append (l₁ l₂ : List MsgNode) (k : String) :
    countTagged (l₁ ++ l₂) k = countTagged l₁ k + countTagged l₂ k := by
  simp [countTagged, List.filter_append]

theorem removeFirstErrorMsg_of_count0 (k : String) (l : List MsgNode)
    (h : countTagged l k = 0) : removeFirstErrorMsg k l = l := by
  induction l with
  | nil => rfl
  | cons n ns ih =>
    rw [countTagged_cons] at h
    by_cases hn : n.errorFor = k
    · rw [if_pos hn] at h; omega
    · rw [if_neg hn] at h
      simp only [removeFirstErrorMsg, if_neg hn]
      rw [ih (by omega)]

theorem countTagged_removeFirst (k : String) (l : List MsgNode)
    (h : countTagged l k ≤ 1) : countTagged (removeFirstErrorMsg k l) k = 0 := by
  induction l with
  | nil => rfl
  | cons n ns ih =>
    rw [countTagged_cons] at h
    by_cases hn : n.errorFor = k
    · rw [if_pos hn] at h
      simp only [removeFirstErrorMsg, if_pos hn]
      omega
    · rw [if_neg hn] at h
      simp only [removeFirstErrorMsg, if_neg hn]
      rw [countTagged_cons, if_neg hn, ih (by omega)]

theorem removeFirstErrorMsg_append_tagged (k : String) (l : List MsgNode) (n : MsgNode)
    (h : countTagged l k = 0) (hn : n.errorFor = k) :
    removeFirstErrorMsg k (l ++ [n]) = l := by
  induction l with
  | nil => simp [removeFirstErrorMsg, hn]
  | cons m l ih =>
    rw [countTagged_cons] at h
    by_cases hm : m.errorFor = k
    · rw [if_pos hm] at h; omega
    · rw [if_neg hm] at h
      simp only [List.cons_append, removeFirstErrorMsg, if_neg hm]
      rw [show l.append [n] = l ++ [n] from rfl, ih (by omega)]

theorem updateFieldUI_shape_invalid (opts : UIOptions) (errors : ErrorMap)
    (f : FormField) (k : String) (ui : UIState) (fe : FieldError)
    (hl : lookupErr errors k = some fe) :
    updateFieldUI opts errors f k ui =
      ⟨classAdd (ui.classes.filter
          (fun c => c ≠ opts.errorClass && c ≠ opts.successClass)) opts.errorClass,
        removeFirstErrorMsg (fieldKey f) ui.msgs
          ++ [⟨opts.errorMessageClass, fe.message, fieldKey f⟩]⟩ := by
  simp [updateFieldUI, hl]

theorem updateFieldUI_shape_valid (opts : UIOptions) (errors : ErrorMap)
    (f : FormField) (k : String) (ui : UIState)
    (hl : lookupErr errors k = none) :
    updateFieldUI opts errors f k ui =
      ⟨(if f.value ≠ "" then
          classAdd (ui.classes.filter
            (fun c => c ≠ opts.errorClass && c ≠ opts.successClass)) opts.successClass
        else ui.classes.filter
            (fun c => c ≠ opts.errorClass && c ≠ opts.successClass)),
        removeFirstErrorMsg (fieldKey f) ui.msgs⟩ := by
  by_cases hv : f.value ≠ "" <;> simp [updateFieldUI, hl, hv]

/-- C8: the Error/UI Synchronizer is idempotent — starting from any wrapper
holding at most one message node tagged for the field (the invariant the
engine itself maintains), running it twice for the same error state yields
exactly the presentation of running it once; and an invalid field ends up
with exactly one injected message node tagged with its key, a valid field
with none. -/
theorem c8_updateFieldUI_idempotent (opts : UIOptions) (errors : ErrorMap)
    (f : FormField) (ui : UIState)
    (h : countTagged ui.msgs (fieldKey f) ≤ 1) :
    updateFieldUI opts errors f (fieldKey f)
        (updateFieldUI opts errors f (fieldKey f) ui)
      = updateFieldUI opts errors f (fieldKey f) ui
    ∧ countTagged (updateFieldUI opts errors f (fieldKey f) ui).msgs (fieldKey f)
      = (if (lookupErr errors (fieldKey f)).isSome then 1 else 0) := by
  have hclean := countTagged_removeFirst (fieldKey f) ui.msgs h
  cases hl : lookupErr errors (fieldKey f) with
  | some fe =>
    have h1 := updateFieldUI_shape_invalid opts errors f (fieldKey f) ui fe hl
    have h2 := updateFieldUI_shape_invalid opts errors f (fieldKey f)
      (updateFieldUI opts errors f (fieldKey f) ui) fe hl
    constructor
    · rw [h2, h1]
      simp only [UIState.mk.injEq]
      constructor
      · rw [filter_classAdd _ _ _ (by simp), filter_filter_self]
      · rw [removeFirstErrorMsg_append_tagged _ _ _ hclean rfl]
    · rw [h1]
      simp only [countTagged_append, hclean, countTagged_cons]
      simp [countTagged]
  | none =>
    have h1 := updateFieldUI_shape_valid opts errors f (fieldKey f) ui hl
    have h2 := updateFieldUI_shape_valid opts errors f (fieldKey f)
      (updateFieldUI opts errors f (fieldKey f) ui) hl
    constructor
    · rw [h2, h1]
      simp only [UIState.mk.injEq]
      constructor
      · by_cases hv : f.value ≠ ""
        · rw [if_pos hv, if_pos hv, filter_classAdd _ _ _ (by simp), filter_filter_self]
        · rw [if_neg hv, if_neg hv, filter_filter_self]
      · rw [removeFirstErrorMsg_of_count0 _ _ hclean]
    · rw [h1]
      simp [hclean]

/-- Witness for C8 on the default styling options, an error map in which
field `e` failed `required`, and a wrapper with no prior message node. -/
theorem c8_updateFieldUI_idempotent_witness :
    updateFieldUI defaultUIOptions c8Errors c8Field (fieldKey c8Field)
        (updateFieldUI defaultUIOptions c8Errors c8Field (fieldKey c8Field) c8UI)
      = updateFieldUI defaultUIOptions c8Errors c8Field (fieldKey c8Field) c8UI
    ∧ countTagged (updateFieldUI defaultUIOptions c8Errors c8Field
          (fieldKey c8Field) c8UI).msgs (fieldKey c8Field)
      = (if (lookupErr c8Errors (fieldKey c8Field)).isSome then 1 else 0) :=
  c8_updateFieldUI_idempotent defaultUIOptions c8Errors c8Field c8UI (by decide)

/-- C9: message selection order and substitution scope.  (a) A truthy
per-field per-rule custom message attribute is returned verbatim, with no
parameter substitution; (b) failing that, a truthy per-field-name override
in the messages mapping is returned verbatim, with no substitution; (c)
only a registry template has the parameter substituted, and only its first
`{0}` occurrence is replaced (shown on a registered template holding two
occurrences). -/
theorem c9_message_substitution_scope :
    (∀ (msgs : String → Option MsgEntry) (rule : String) (param : Option String)
        (f : FormField) (m : String),
      f.customMessage rule = some m → m ≠ "" →
      getErrorMessage msgs rule param f = m)
    ∧ (∀ (msgs : String → Option MsgEntry) (rule : String) (param : Option String)
        (f : FormField) (tbl : List (String × String)) (s : String),
      (f.customMessage rule).getD "" = "" →
      msgs (fieldKey f) = some (.perField tbl) →
      lookupStr tbl rule = some s → s ≠ "" →
      getErrorMessage msgs rule param f = s)
    ∧ getErrorMessage c9Msgs "minlength" (some "7") c9Field = "7 and {0}" := by
  refine ⟨?_, ?_, by decide⟩
  · intro msgs rule param f m hm hne
    simp [getErrorMessage, hm, hne]
  · intro msgs rule param f tbl s hcust hmsgs hlook hne
    simp [getErrorMessage, hcust, hmsgs, hlook, hne]

/-- Witness for C9: the custom attribute `data-email-message="Custom!"`
wins verbatim, and a per-field override for field `p` wins verbatim. -/
theorem c9_message_substitution_scope_witness :
    getErrorMessage defaultMessagesMap "email" none c9FieldCustom = "Custom!"
    ∧ getErrorMessage c9MsgsOverride "required" (some "x") c9Field = "Fill p in" :=
  ⟨c9_message_substitution_scope.1 defaultMessagesMap "email" none c9FieldCustom
      "Custom!" rfl (by decide),
   c9_message_substitution_scope.2.1 c9MsgsOverride "required" (some "x") c9Field
      [("required", "Fill p in")] "Fill p in" rfl rfl rfl (by decide)⟩

/-- C10: a checkbox field's extracted value is its checked state as a
boolean, and `required` passes on the boolean `false` (strict comparison
against null, undefined and the empty string all fail), so an unchecked
required checkbox passes the `required` rule; on the concrete unchecked
required checkbox `cb`, a full `validateField`-style evaluation records no
error at all. -/
theorem c10_unchecked_checkbox_passes_required :
    (∀ (form : List FormField) (f : FormField), f.ftype = some "checkbox" →
      getFieldValue form f = .boolVal f.checked
      ∧ (f.checked = false → Rules.required (getFieldValue form f) = true))
    ∧ validateField defaultRulesReg defaultMessagesMap c3Host [checkboxField]
        checkboxField [] = [] := by
  constructor
  · intro form f hty
    constructor
    · simp [getFieldValue, hty]
    · intro hc
      simp [getFieldValue, hty, hc]
      decide
  · decide

/-- Witness for C10 at the unchecked required checkbox `cb`. -/
theorem c10_unchecked_checkbox_witness :
    getFieldValue [] checkboxField = .boolVal checkboxField.checked
    ∧ Rules.required (getFieldValue [] checkboxField) = true :=
  ⟨(c10_unchecked_checkbox_passes_required.1 [] checkboxField rfl).1,
   (c10_unchecked_checkbox_passes_required.1 [] checkboxField rfl).2 rfl⟩
